import Mathlib

/-!
Shallow embedding of the training scheduler of `src/training/scheduler.h`
(class `Scheduler`, exception `DivergenceException`) together with the small
value types it relies on. C++ `float` values are modelled as exact rationals
(`ℚ`); the results of `std::sqrt` are modelled via `Real.sqrt` on top of the
rational data. Non-finite float values (inf/nan) are modelled by `Option ℚ`
with `none` standing for a non-finite value. `size_t` counters are modelled
as `ℕ`, with wrap-around made explicit (`sizeTSub`) at the one place where a
`size_t` subtraction may underflow. Fatal aborts (the `ABORT`/`ABORT_IF`
macros) are modelled as `none` results; the catchable divergence exception is
modelled with `Except`.
-/

namespace Marian

/-- The scheduling time bases, from the `SchedulingUnit` enumeration:
target labels, gradient updates, data epochs. -/
inductive SchedulingUnit where
  | trgLabels
  | updates
  | epochs
  deriving DecidableEq, Repr

/-- A parsed scheduling parameter: a count `n` together with the unit it is
measured in (`300Ku` = 300000 updates, etc.). -/
structure SchedulingParameter where
  n : Nat
  unit : SchedulingUnit
  deriving DecidableEq, Repr

/-- Truthiness of a scheduling parameter (C++ `operator bool`): a parameter is
"set" iff its count is positive. -/
def SchedulingParameter.truthy (p : SchedulingParameter) : Bool :=
  decide (0 < p.n)

/-- Largest `size_t` value, `std::numeric_limits<std::size_t>::max()`. -/
def sizeTMax : Nat := 2 ^ 64 - 1

/-- Wrapping `size_t` subtraction `a - b` (mod `2^64`), for operands below
`2^64`. -/
def sizeTSub (a b : Nat) : Nat := (a + 2 ^ 64 - b) % 2 ^ 64

/-- Float addition where `none` models a non-finite value (non-finite
operands contaminate the result, as inf/nan do). -/
def fadd : Option ℚ → Option ℚ → Option ℚ
  | some x, some y => some (x + y)
  | _, _ => none

/-- Float division `a / b` where `none` models a non-finite value: division
of a finite value by zero yields inf/nan, i.e. `none`. -/
def fdiv (a : Option ℚ) (b : ℚ) : Option ℚ :=
  match a with
  | none => none
  | some x => if b = 0 then none else some (x / b)

/-- The fields of `TrainingState` used by the scheduler operations under
study. The `prev*` fields are the previous-progress snapshot consulted by
the period-membership test. `eta` is the effective learning rate (a real,
since the scheduled decay factor involves a square root). -/
structure TrainingState where
  epochs : Nat
  batches : Nat
  labelsTotal : Nat
  samplesEpoch : Nat
  prevEpochs : Nat
  prevBatches : Nat
  prevLabelsTotal : Nat
  costSum : Option ℚ
  costCount : ℚ
  updatesDisp : Nat
  samplesDisp : Nat
  wordsDisp : Nat
  lossAvgSlow : ℚ
  lossAvgFast : ℚ
  lossVarSlow : ℚ
  eta : ℝ
  factor : ℚ
  warmupStart : SchedulingParameter
  validated : Bool

/-- Modelled from the spec: `progress-in(unit)` on Training State "converts
the relevant counter (epochs/batches/labelsTotal) depending on the requested
unit" (the `TrainingState` implementation itself is outside the given
sources). -/
def TrainingState.getProgressIn (s : TrainingState) : SchedulingUnit → Nat
  | .epochs => s.epochs
  | .updates => s.batches
  | .trgLabels => s.labelsTotal

/-- Modelled from the spec: the previous-progress counterpart of
`getProgressIn`, read from the snapshot taken by
`rememberPreviousProgress`. -/
def TrainingState.getPreviousProgressIn (s : TrainingState) : SchedulingUnit → Nat
  | .epochs => s.prevEpochs
  | .updates => s.prevBatches
  | .trgLabels => s.prevLabelsTotal

/-- Modelled from the spec: `entered-new-period-of(param)` "returns true
exactly once per boundary crossing of progress-in(param.unit) across a
multiple of param.n (or every call if param.n == 0 meaning every step)". -/
def TrainingState.enteredNewPeriodOf (s : TrainingState) (p : SchedulingParameter) : Bool :=
  if p.n = 0 then true
  else decide (s.getProgressIn p.unit / p.n ≠ s.getPreviousProgressIn p.unit / p.n)

/-- Modelled from the spec: `largerThan(param)` tests that "progress exceeds
a configured floor" in the parameter's unit. -/
def TrainingState.largerThan (s : TrainingState) (p : SchedulingParameter) : Bool :=
  decide (p.n < s.getProgressIn p.unit)

/-- Modelled from the spec: `rememberPreviousProgress` snapshots the progress
counters for the period-membership test. -/
def TrainingState.rememberPreviousProgress (s : TrainingState) : TrainingState :=
  { s with prevEpochs := s.epochs, prevBatches := s.batches, prevLabelsTotal := s.labelsTotal }

/-- Modelled from the spec: `newUpdate` advances the gradient-update counter
`batches` ("Update/Batch: one gradient-computation-and-apply step"). The
observer fan-out it triggers only touches learning-rate fields
(`eta`/`factor`/`warmupStart`), none of which feed back into the loss
statistics or counters studied below, so it is omitted. -/
def TrainingState.newUpdate (s : TrainingState) : TrainingState :=
  { s with batches := s.batches + 1 }

/-- Modelled from the spec: `updateEta` sets the final learning rate,
"state.eta = base-rate-after-warmup-and-schedule × state.factor". -/
noncomputable def TrainingState.updateEta (s : TrainingState) (baselr : ℝ) : TrainingState :=
  { s with eta := baselr * (s.factor : ℝ) }

/-- The already-parsed option values consumed by the scheduler operations
under study (scheduling-parameter-valued options are kept in parsed form;
their textual parsing happens upstream of `Scheduler`). -/
structure SchedulerOptions where
  learnRate : ℚ
  lrWarmup : SchedulingParameter
  lrWarmupStartRate : ℚ
  lrDecayInvSqrt : List SchedulingParameter
  miniBatchWarmup : SchedulingParameter
  miniBatchTrackLR : Bool
  afterEpochs : Nat
  afterBatches : Nat
  after : List SchedulingParameter
  earlyStopping : Nat
  earlyStoppingOn : String
  validFreq : SchedulingParameter
  validFrom : SchedulingParameter
  dispFreq : SchedulingParameter
  dispFirst : Nat
  throwOnDivergence : Bool
  lossAvgWindowSlow : Nat
  lossAvgWindowFast : Nat
  divergenceTolerance : ℚ
  throwAfter : SchedulingParameter
  logicalEpoch : SchedulingParameter

/-- `Scheduler::calculateLogicalEpoch`: current progress as a multiple of the
configured logical-epoch parameter. -/
def calculateLogicalEpoch (cfg : SchedulerOptions) (s : TrainingState) : ℚ :=
  match cfg.logicalEpoch.unit with
  | .epochs => (s.epochs : ℚ) / (cfg.logicalEpoch.n : ℚ)
  | .trgLabels => (s.labelsTotal : ℚ) / (cfg.logicalEpoch.n : ℚ)
  | .updates => (s.batches : ℚ) / (cfg.logicalEpoch.n : ℚ)

/-- `Scheduler::stalled1st`: the first validator's stalled count (0 when the
validator list is empty or its first entry is null). Validators are modelled
by their stalled counts; a null validator pointer is `none`. -/
def stalled1st (validators : List (Option Nat)) : Nat :=
  match validators with
  | [] => 0
  | none :: _ => 0
  | some v :: _ => v

/-- `Scheduler::stalledMax`: the largest stalled count across (non-null)
validators, 0 if there are none. -/
def stalledMax (validators : List (Option Nat)) : Nat :=
  validators.foldl
    (fun m v =>
      match v with
      | some c => if m < c then c else m
      | none => m) 0

/-- `Scheduler::stalledMin`: the lowest stalled count across (non-null)
validators, computed with a `size_t`-max sentinel that is mapped back to 0
when no validator contributed. -/
def stalledMin (validators : List (Option Nat)) : Nat :=
  let m := validators.foldl
    (fun m v =>
      match v with
      | some c => if c < m then c else m
      | none => m) sizeTMax
  if m = sizeTMax then 0 else m

/-- `Scheduler::stalled`: the stalled count aggregated according to
`early-stopping-on` ("any" → max, "all" → min, otherwise first). -/
def stalled (stopOn : String) (validators : List (Option Nat)) : Nat :=
  if stopOn = "any" then stalledMax validators
  else if stopOn = "all" then stalledMin validators
  else stalled1st validators

/-- One comma-separated stopping criterion of the `after` option, as tested
inside the loop of `Scheduler::keepGoing`. -/
def afterCriterionFires (cfg : SchedulerOptions) (s : TrainingState)
    (p : SchedulingParameter) : Bool :=
  decide (0 < p.n) &&
    ((decide (p.unit = .epochs) && decide ((p.n : ℚ) < calculateLogicalEpoch cfg s)) ||
     (decide (p.unit = .updates) && decide (p.n ≤ s.batches)) ||
     (decide (p.unit = .trgLabels) && decide (p.n ≤ s.labelsTotal)))

/-- `Scheduler::keepGoing`: the stopping decision. `saveAndExitReq` models
the graceful-shutdown signal polled via `saveAndExitRequested()`;
`endOfStdin` models the `endOfStdin_` member. -/
def keepGoing (cfg : SchedulerOptions) (validators : List (Option Nat))
    (endOfStdin saveAndExitReq : Bool) (s : TrainingState) : Bool :=
  if saveAndExitReq = true then false
  else if 0 < cfg.afterEpochs ∧ (cfg.afterEpochs : ℚ) < calculateLogicalEpoch cfg s then false
  else if 0 < cfg.afterBatches ∧ cfg.afterBatches ≤ s.batches then false
  else if cfg.after.any (afterCriterionFires cfg s) then false
  else if 0 < cfg.earlyStopping ∧ cfg.earlyStopping ≤ stalled cfg.earlyStoppingOn validators
    then false
  else if endOfStdin = true then false
  else true

/-- `Scheduler::validating`: at least one validator, the valid-freq period
was just entered, progress is past the valid-from floor, and the run is
still going. -/
def validating (cfg : SchedulerOptions) (validators : List (Option Nat))
    (endOfStdin saveAndExitReq : Bool) (s : TrainingState) : Bool :=
  !validators.isEmpty && s.enteredNewPeriodOf cfg.validFreq && s.largerThan cfg.validFrom &&
    keepGoing cfg validators endOfStdin saveAndExitReq s

/-- The guard at the top of `Scheduler::validate`: whether the validation
body runs (it is skipped on a pending shutdown, when already validated, or
when the period was not entered and this is not a final validation). -/
def validateProceeds (cfg : SchedulerOptions) (saveAndExitReq : Bool)
    (s : TrainingState) (isFinal : Bool) : Bool :=
  !(saveAndExitReq || s.validated ||
    (!(s.enteredNewPeriodOf cfg.validFreq) && !isFinal))

/-- `Scheduler::getScheduledLRDecayFactor`, kept in rational form: the value
under the square root (or 1 on the no-decay path, since `sqrt 1 = 1`).
`none` models the fatal aborts (wrong argument count, or a set second
argument whose unit differs from the first). -/
def getScheduledLRDecayRadicand (args : List SchedulingParameter)
    (s : TrainingState) : Option ℚ :=
  match args with
  | [] => none
  | [decayGoogle] =>
      let progress := s.getProgressIn decayGoogle.unit
      let start := decayGoogle.n
      if decayGoogle.truthy = true ∧ start < progress then
        some ((decayGoogle.n : ℚ) / ((progress - start + decayGoogle.n : Nat) : ℚ))
      else some 1
  | [decayGoogle, decayStart] =>
      if decayStart.truthy = true ∧ decayStart.unit ≠ decayGoogle.unit then none
      else
        let progress := s.getProgressIn decayGoogle.unit
        let start := decayStart.n
        if decayGoogle.truthy = true ∧ start < progress then
          some ((decayGoogle.n : ℚ) / ((progress - start + decayGoogle.n : Nat) : ℚ))
        else some 1
  | _ => none

/-- `Scheduler::getScheduledLRDecayFactor` proper: the square root of the
rational radicand. -/
noncomputable def getScheduledLRDecayFactor (args : List SchedulingParameter)
    (s : TrainingState) : Option ℝ :=
  (getScheduledLRDecayRadicand args s).map (fun q : ℚ => Real.sqrt ((q : ℝ)))

/-- `Scheduler::updateLearningRate`: warm-up interpolation, scheduled decay
factor, then `state.updateEta`. `none` models the fatal aborts (warm-up unit
mismatch, or an abort inside `getScheduledLRDecayFactor`). -/
noncomputable def updateLearningRate (cfg : SchedulerOptions)
    (s : TrainingState) : Option TrainingState :=
  let baselr := cfg.learnRate
  let wf : Option ℚ :=
    if cfg.lrWarmup.truthy = true then
      if s.warmupStart.truthy = true ∧ s.warmupStart.unit ≠ cfg.lrWarmup.unit then none
      else
        let bno := sizeTSub (s.getProgressIn cfg.lrWarmup.unit) s.warmupStart.n
        some (min 1 ((bno : ℚ) / (cfg.lrWarmup.n : ℚ)))
    else some 1
  match wf, getScheduledLRDecayRadicand cfg.lrDecayInvSqrt s with
  | some warmupFactor, some rad =>
      let lrStart := cfg.lrWarmupStartRate
      let base1 := lrStart + (baselr - lrStart) * warmupFactor
      some (s.updateEta ((base1 : ℝ) * Real.sqrt (rad : ℝ)))
  | _, _ => none

/-- `Scheduler::getDynamicMBSizeMultiplier`: the mini-batch warm-up ramp
(with a square root on the progress fraction for the target-labels unit),
then the rate-tracking path, whose body begins with an unconditional
`ABORT("Please review this code")` — modelled as `none`. -/
noncomputable def getDynamicMBSizeMultiplier (cfg : SchedulerOptions)
    (s : TrainingState) : Option ℝ :=
  let mbWarmup := cfg.miniBatchWarmup
  let r1 : ℝ :=
    if mbWarmup.truthy = true then
      let progress := s.getProgressIn mbWarmup.unit
      let pr : ℝ := (progress : ℝ) / (mbWarmup.n : ℝ)
      let pr2 : ℝ := if mbWarmup.unit = SchedulingUnit.trgLabels then Real.sqrt pr else pr
      if pr2 < 1 then 1 * pr2 else 1
    else 1
  if cfg.miniBatchTrackLR = true then none else some r1

/-- The payload of the `DivergenceException` thrown by `Scheduler::update`:
the statistical throw carries the two averages plus the `delta` and slow
variance from which `sigmas = delta / sqrt(varSlow)` is formed; the
diagnostic (`throw-after`) throw carries the averages and `sigmas = 0`. -/
inductive DivergenceError where
  | statistical (averageSlow averageFast delta varSlow : ℚ)
  | diagnostic (averageSlow averageFast : ℚ)
  deriving DecidableEq, Repr

/-- Slow-moving average carried by the exception. -/
def DivergenceError.averageSlow : DivergenceError → ℚ
  | .statistical a _ _ _ => a
  | .diagnostic a _ => a

/-- Fast-moving average carried by the exception. -/
def DivergenceError.averageFast : DivergenceError → ℚ
  | .statistical _ b _ _ => b
  | .diagnostic _ b => b

/-- The `sigmas` value carried by the exception: `delta / sqrt(varSlow)` for
the statistical throw, literal 0 for the diagnostic throw. -/
noncomputable def DivergenceError.sigmas : DivergenceError → ℝ
  | .statistical _ _ d v => (d : ℝ) / Real.sqrt (v : ℝ)
  | .diagnostic _ _ => 0

/-- The condition under which the statistical divergence throw fires, in
decidable rational form: `delta > 0`, `sigma = sqrt(varSlow) > 0` and
`delta / sigma > tolerance`. For positive `delta` and `varSlow` the third
comparison is equivalent to `tolerance < 0 ∨ tolerance² · varSlow < delta²`
(see `divergenceFires_iff`). -/
def divergenceFires (delta varSlow tol : ℚ) : Bool :=
  decide (0 < delta) && decide (0 < varSlow) &&
    (decide (tol < 0) || decide (tol ^ 2 * varSlow < delta ^ 2))

/-- The statistics-accumulation prefix of `Scheduler::update`: remember
previous progress, clear `validated`, accumulate display/cost counters, and
count the gradient update (`newUpdate`). -/
def preDivState (s : TrainingState) (loss : Option ℚ) (count : ℚ)
    (batchSize batchLabels : Nat) : TrainingState :=
  let s1 := s.rememberPreviousProgress
  let s2 := { s1 with
    validated := false
    costSum := fadd s1.costSum loss
    costCount := s1.costCount + count
    updatesDisp := s1.updatesDisp + 1
    samplesDisp := s1.samplesDisp + batchSize
    wordsDisp := s1.wordsDisp + batchLabels
    samplesEpoch := s1.samplesEpoch + batchSize
    labelsTotal := s1.labelsTotal + batchLabels }
  s2.newUpdate

/-- The "reasonable defaults during training start" step of
`Scheduler::update`: when the slow average is still 0 both averages are
seeded with the current normalized loss and the variance is cleared. -/
def initAdjust (c : ℚ) (s : TrainingState) : TrainingState :=
  if s.lossAvgSlow = 0 then { s with lossAvgSlow := c, lossAvgFast := c, lossVarSlow := 0 }
  else s

/-- The divergence-detection block of `Scheduler::update`, entered when
`throw-on-divergence` is set and the normalized loss `c` is finite: seed the
averages if necessary; once `batches` exceeds the slow window, throw when
the fast average exceeds the slow one by more than the tolerated number of
standard deviations; then the diagnostic `throw-after` check; finally the
exponential moving average/variance updates. -/
def divergenceStep (cfg : SchedulerOptions) (c : ℚ) (s : TrainingState) :
    Except DivergenceError TrainingState :=
  let windowSlow := min cfg.lossAvgWindowSlow s.batches
  let windowFast := min cfg.lossAvgWindowFast s.batches
  let alphaSlow : ℚ := 2 / ((windowSlow : ℚ) + 1)
  let alphaFast : ℚ := 2 / ((windowFast : ℚ) + 1)
  let s1 := initAdjust c s
  if cfg.lossAvgWindowSlow < s1.batches ∧
      divergenceFires (s1.lossAvgFast - s1.lossAvgSlow) s1.lossVarSlow
        cfg.divergenceTolerance = true then
    .error (.statistical s1.lossAvgSlow s1.lossAvgFast
      (s1.lossAvgFast - s1.lossAvgSlow) s1.lossVarSlow)
  else if cfg.throwAfter.truthy = true ∧ s1.enteredNewPeriodOf cfg.throwAfter = true then
    .error (.diagnostic s1.lossAvgSlow s1.lossAvgFast)
  else
    let deltaSlow := c - s1.lossAvgSlow
    let s2 := { s1 with
      lossAvgSlow := s1.lossAvgSlow + alphaSlow * deltaSlow
      lossVarSlow := (1 - alphaSlow) * (s1.lossVarSlow + alphaSlow * deltaSlow * deltaSlow) }
    let deltaFast := c - s2.lossAvgFast
    .ok { s2 with lossAvgFast := s2.lossAvgFast + alphaFast * deltaFast }

/-- The display-window reset at the end of `Scheduler::update`. -/
def displayReset (cfg : SchedulerOptions) (s : TrainingState) : TrainingState :=
  if s.enteredNewPeriodOf cfg.dispFreq = true ∨ s.batches ≤ cfg.dispFirst then
    { s with costSum := some 0, costCount := 0, updatesDisp := 0, samplesDisp := 0,
             wordsDisp := 0 }
  else s

/-- `Scheduler::update` (single-process view; the distributed all-reduce of
loss and count is the identity with one worker, and the gradient-norm block
is skipped since the callers under study pass `gradientNorm = 0`). `loss` is
the summed batch loss (`none` when non-finite), `count` the loss weight; the
normalized loss is their float quotient. -/
def schedulerUpdate (cfg : SchedulerOptions) (s : TrainingState) (loss : Option ℚ)
    (count : ℚ) (batchSize batchLabels : Nat) : Except DivergenceError TrainingState :=
  let s1 := preDivState s loss count batchSize batchLabels
  let res : Except DivergenceError TrainingState :=
    match fdiv loss count with
    | some c => if cfg.throwOnDivergence = true then divergenceStep cfg c s1 else .ok s1
    | none => .ok s1
  res.map (displayReset cfg)

/-- One batch of a training stream fed to `Scheduler::update`. -/
structure UpdateInput where
  loss : Option ℚ
  count : ℚ
  batchSize : Nat
  batchLabels : Nat

/-- Iterated `Scheduler::update` over a stream of batches, stopping at the
first thrown divergence exception. -/
def updateRun (cfg : SchedulerOptions) (s : TrainingState) :
    List UpdateInput → Except DivergenceError TrainingState
  | [] => .ok s
  | i :: rest =>
      match schedulerUpdate cfg s i.loss i.count i.batchSize i.batchLabels with
      | .error e => .error e
      | .ok s2 => updateRun cfg s2 rest

/-- The distributed reducer (`IMPIWrapper`) as seen by `Scheduler::load`:
only its `isMainProcess` answer matters for the control flow studied here. -/
structure MPIModel where
  mainProcess : Bool

/-- `Scheduler::load`: the statement `mpi_->isMainProcess()` dereferences the
reducer before the `if(mpi_)` null guard further down, so a null reducer
(`none`, the constructor default) crashes — modelled as a `none` result.
With a reducer present, the main process reads the sidecar progress file if
it exists (missing file means an empty string, a fresh start) and the
content is broadcast; the result is the string handed to
`loadFromString`. -/
def schedulerLoad (mpi : Option MPIModel) (progressFileExists : Bool)
    (progressFileContent : String) : Option String :=
  match mpi with
  | none => none
  | some m =>
      let yamlStr := if m.mainProcess = true ∧ progressFileExists = true
        then progressFileContent else ""
      some yamlStr

/-- A concrete option set used by the witnesses below: all periodic options
unset, divergence detection off, base learn rate 1. -/
def testOptions : SchedulerOptions where
  learnRate := 1
  lrWarmup := ⟨0, .updates⟩
  lrWarmupStartRate := 0
  lrDecayInvSqrt := [⟨0, .updates⟩]
  miniBatchWarmup := ⟨0, .updates⟩
  miniBatchTrackLR := false
  afterEpochs := 0
  afterBatches := 0
  after := []
  earlyStopping := 0
  earlyStoppingOn := "first"
  validFreq := ⟨0, .updates⟩
  validFrom := ⟨0, .updates⟩
  dispFreq := ⟨0, .updates⟩
  dispFirst := 0
  throwOnDivergence := false
  lossAvgWindowSlow := 1000
  lossAvgWindowFast := 10
  divergenceTolerance := 5
  throwAfter := ⟨0, .updates⟩
  logicalEpoch := ⟨1, .epochs⟩

/-- A concrete training state used by the witnesses below: start of the first
epoch, everything at its initial value. -/
def testState : TrainingState where
  epochs := 1
  batches := 0
  labelsTotal := 0
  samplesEpoch := 0
  prevEpochs := 0
  prevBatches := 0
  prevLabelsTotal := 0
  costSum := some 0
  costCount := 0
  updatesDisp := 0
  samplesDisp := 0
  wordsDisp := 0
  lossAvgSlow := 0
  lossAvgFast := 0
  lossVarSlow := 0
  eta := 0
  factor := 1
  warmupStart := ⟨0, .updates⟩
  validated := false

/-- Options with divergence detection enabled over a slow window of 2 and a
fast window of 1, tolerance 5, no throw-after mark. -/
def divOptions : SchedulerOptions :=
  { testOptions with throwOnDivergence := true, lossAvgWindowSlow := 2, lossAvgWindowFast := 1 }

/-- A state in which the fast-moving loss average has run away from the
slow-moving one by ten standard deviations. -/
def divState : TrainingState :=
  { testState with batches := 10, lossAvgSlow := 1, lossAvgFast := 11, lossVarSlow := 1 }

/-- Options with a 100-update learning-rate warm-up starting from rate 0. -/
def warmupOptions : SchedulerOptions :=
  { testOptions with lrWarmup := ⟨100, .updates⟩ }

theorem sizeTSub_of_le (a b : Nat) (hba : b ≤ a) (ha : a < 2 ^ 64) :
    sizeTSub a b = a - b := by
  unfold sizeTSub
  have h1 : a + 2 ^ 64 - b = (a - b) + 2 ^ 64 := by omega
  rw [h1, Nat.add_mod_right, Nat.mod_eq_of_lt (by omega)]

/-- The decidable rational form of the statistical throw condition agrees
with the condition as written in the source: `delta > 0`,
`sigma = sqrt(varSlow) > 0`, `delta / sigma > tolerance`. -/
theorem divergenceFires_iff (d v t : ℚ) :
    divergenceFires d v t = true ↔
      (0 < d ∧ 0 < Real.sqrt ((v : ℝ)) ∧
        ((t : ℝ)) < ((d : ℝ)) / Real.sqrt ((v : ℝ))) := by
  unfold divergenceFires
  simp only [Bool.and_eq_true, Bool.or_eq_true, decide_eq_true_eq]
  constructor
  · rintro ⟨⟨hd, hv⟩, ht⟩
    have hvR : (0 : ℝ) < (v : ℝ) := by exact_mod_cast hv
    have hs : 0 < Real.sqrt (v : ℝ) := Real.sqrt_pos.mpr hvR
    refine ⟨hd, hs, ?_⟩
    rcases ht with ht | ht
    · have htR : ((t : ℝ)) < 0 := by exact_mod_cast ht
      exact htR.trans (div_pos (by exact_mod_cast hd) hs)
    · by_cases htn : ((t : ℝ)) < 0
      · exact htn.trans (div_pos (by exact_mod_cast hd) hs)
      · push_neg at htn
        rw [lt_div_iff hs]
        have hsq : ((t : ℝ) * Real.sqrt (v : ℝ)) ^ 2 = (t : ℝ) ^ 2 * (v : ℝ) := by
          rw [mul_pow, Real.sq_sqrt hvR.le]
        have h2 : ((t : ℝ) * Real.sqrt (v : ℝ)) ^ 2 < ((d : ℝ)) ^ 2 := by
          rw [hsq]; exact_mod_cast ht
        have hd0 : (0 : ℝ) ≤ (d : ℝ) := by exact_mod_cast hd.le
        exact lt_of_pow_lt_pow_left 2 hd0 h2
  · rintro ⟨hd, hs, ht⟩
    have hvR : (0 : ℝ) < (v : ℝ) := Real.sqrt_pos.mp hs
    have hv : 0 < v := by exact_mod_cast hvR
    refine ⟨⟨hd, hv⟩, ?_⟩
    by_cases htn : t < 0
    · exact Or.inl htn
    · right
      push_neg at htn
      have h1 : (t : ℝ) * Real.sqrt (v : ℝ) < (d : ℝ) := (lt_div_iff hs).mp ht
      have h0 : (0 : ℝ) ≤ (t : ℝ) * Real.sqrt (v : ℝ) :=
        mul_nonneg (by exact_mod_cast htn) hs.le
      have h2 : ((t : ℝ) * Real.sqrt (v : ℝ)) ^ 2 < ((d : ℝ)) ^ 2 :=
        pow_lt_pow_left h1 h0 (by norm_num)
    -- (t * sqrt v)^2 = t^2 * v
      rw [mul_pow, Real.sq_sqrt hvR.le] at h2
      exact_mod_cast h2

theorem preDivState_lossAvgSlow (s : TrainingState) (loss : Option ℚ) (count : ℚ)
    (bs bl : Nat) : (preDivState s loss count bs bl).lossAvgSlow = s.lossAvgSlow := rfl

theorem preDivState_lossAvgFast (s : TrainingState) (loss : Option ℚ) (count : ℚ)
    (bs bl : Nat) : (preDivState s loss count bs bl).lossAvgFast = s.lossAvgFast := rfl

theorem preDivState_lossVarSlow (s : TrainingState) (loss : Option ℚ) (count : ℚ)
    (bs bl : Nat) : (preDivState s loss count bs bl).lossVarSlow = s.lossVarSlow := rfl

theorem preDivState_batches (s : TrainingState) (loss : Option ℚ) (count : ℚ)
    (bs bl : Nat) : (preDivState s loss count bs bl).batches = s.batches + 1 := rfl

theorem displayReset_lossAvgSlow (cfg : SchedulerOptions) (s : TrainingState) :
    (displayReset cfg s).lossAvgSlow = s.lossAvgSlow := by
  unfold displayReset; split <;> rfl

theorem displayReset_lossAvgFast (cfg : SchedulerOptions) (s : TrainingState) :
    (displayReset cfg s).lossAvgFast = s.lossAvgFast := by
  unfold displayReset; split <;> rfl

theorem displayReset_lossVarSlow (cfg : SchedulerOptions) (s : TrainingState) :
    (displayReset cfg s).lossVarSlow = s.lossVarSlow := by
  unfold displayReset; split <;> rfl

/-- Along a constant-normalized-loss stream the loss statistics stay in the
steady state `fast = slow`, `var = 0`, `slow ∈ {0, c}`, and the update never
throws. -/
theorem constantLoss_step (cfg : SchedulerOptions) (s : TrainingState) (c : ℚ)
    (i : UpdateInput)
    (hthrow : cfg.throwOnDivergence = true)
    (hafter : cfg.throwAfter.truthy = false)
    (hin : fdiv i.loss i.count = some c)
    (hfs : s.lossAvgFast = s.lossAvgSlow)
    (hv : s.lossVarSlow = 0)
    (hsc : s.lossAvgSlow = 0 ∨ s.lossAvgSlow = c) :
    ∃ s2, schedulerUpdate cfg s i.loss i.count i.batchSize i.batchLabels = .ok s2 ∧
      s2.lossAvgFast = s2.lossAvgSlow ∧ s2.lossVarSlow = 0 ∧
      (s2.lossAvgSlow = 0 ∨ s2.lossAvgSlow = c) := by
  have hsc1 : (initAdjust c (preDivState s i.loss i.count i.batchSize i.batchLabels)).lossAvgSlow = c ∧
      (initAdjust c (preDivState s i.loss i.count i.batchSize i.batchLabels)).lossAvgFast = c ∧
      (initAdjust c (preDivState s i.loss i.count i.batchSize i.batchLabels)).lossVarSlow = 0 := by
    unfold initAdjust
    by_cases h0 : (preDivState s i.loss i.count i.batchSize i.batchLabels).lossAvgSlow = 0
    · rw [if_pos h0]
      exact ⟨rfl, rfl, rfl⟩
    · rw [if_neg h0]
      rw [preDivState_lossAvgSlow] at h0 ⊢
      rw [preDivState_lossAvgFast, preDivState_lossVarSlow]
      rcases hsc with h | h
      · exact absurd h h0
      · exact ⟨h, hfs.trans h, hv⟩
  set p := preDivState s i.loss i.count i.batchSize i.batchLabels with hp
  set sa := initAdjust c p with hsa
  have hstep : ∃ s3, divergenceStep cfg c p = .ok s3 ∧
      s3.lossAvgFast = s3.lossAvgSlow ∧ s3.lossVarSlow = 0 ∧ s3.lossAvgSlow = c := by
    unfold divergenceStep
    rw [← hsa]
    have hdelta : sa.lossAvgFast - sa.lossAvgSlow = 0 := by
      rw [hsc1.1, hsc1.2.1, sub_self]
    have hfire : divergenceFires (sa.lossAvgFast - sa.lossAvgSlow) sa.lossVarSlow
        cfg.divergenceTolerance = false := by
      rw [hdelta]
      unfold divergenceFires
      simp
    rw [if_neg (by rw [hfire]; simp)]
    rw [if_neg (by rw [hafter]; simp)]
    refine ⟨_, rfl, ?_, ?_, ?_⟩ <;>
      simp [hsc1.1, hsc1.2.1, hsc1.2.2]
  obtain ⟨s3, hs3, h1, h2, h3⟩ := hstep
  refine ⟨displayReset cfg s3, ?_, ?_, ?_, ?_⟩
  · unfold schedulerUpdate
    rw [hin]
    simp only [hthrow, if_true, ← hp, hs3, Except.map]
  · rw [displayReset_lossAvgFast, displayReset_lossAvgSlow]; exact h1
  · rw [displayReset_lossVarSlow]; exact h2
  · rw [displayReset_lossAvgSlow]; exact Or.inr h3

/-- C3: validating() returns true iff at least one validator is registered,
the valid-freq period has just been entered, progress exceeds the valid-from
floor, and keepGoing() still returns true; in every other case it returns
false. The unconditional final validation lives in the companion guard of
validate(): with isFinal = true the period test is bypassed and the body
runs whenever no shutdown is pending and the state is not already
validated. -/
theorem C3_validating_iff (cfg : SchedulerOptions) (validators : List (Option Nat))
    (endOfStdin saveExit : Bool) (s : TrainingState) :
    (validating cfg validators endOfStdin saveExit s = true ↔
      (validators ≠ [] ∧ s.enteredNewPeriodOf cfg.validFreq = true ∧
        s.largerThan cfg.validFrom = true ∧
        keepGoing cfg validators endOfStdin saveExit s = true)) ∧
    validateProceeds cfg saveExit s true = (!saveExit && !s.validated) := by
  constructor
  · unfold validating
    simp [Bool.and_eq_true, List.isEmpty_iff, and_assoc]
  · unfold validateProceeds
    simp

/-- C6: stalled() aggregates per-validator stalled counts according to
early-stopping-on: "first" returns the first validator's count, "any" the
maximum, "all" the minimum (counts being size_t values, hence below the
size_t sentinel used by stalledMin). -/
theorem C6_stalled_aggregation (a b : Nat) (ha : a < sizeTMax) (hb : b < sizeTMax) :
    stalled "any" [some a, some b] = max a b ∧
    stalled "all" [some a, some b] = min a b ∧
    stalled "first" [some a, some b] = a := by
  have hany : stalled "any" [some a, some b] = stalledMax [some a, some b] := by
    unfold stalled; simp
  have hall : stalled "all" [some a, some b] = stalledMin [some a, some b] := by
    unfold stalled; simp
  have hfirst : stalled "first" [some a, some b] = stalled1st [some a, some b] := by
    unfold stalled; simp
  refine ⟨?_, ?_, ?_⟩
  · rw [hany]
    unfold stalledMax
    simp only [List.foldl]
    split_ifs <;> omega
  · rw [hall]
    unfold stalledMin
    simp only [sizeTMax] at ha hb ⊢
    norm_num at ha hb ⊢
    split_ifs <;> omega
  · rw [hfirst]
    rfl

/-- Witness for C6 at the claim's concrete pair of stalled counts 3 and 7. -/
theorem C6_stalled_witness :
    3 < sizeTMax ∧ 7 < sizeTMax ∧
    stalled "any" [some 3, some 7] = 7 ∧
    stalled "all" [some 3, some 7] = 3 ∧
    stalled "first" [some 3, some 7] = 3 := by
  have h3 : 3 < sizeTMax := by norm_num [sizeTMax]
  have h7 : 7 < sizeTMax := by norm_num [sizeTMax]
  obtain ⟨h1, h2, h0⟩ := C6_stalled_aggregation 3 7 h3 h7
  exact ⟨h3, h7, by omega, by omega, h0⟩

/-- C7 (amended): when the rate-tracking policy (mini-batch-track-lr) is
enabled, getDynamicMBSizeMultiplier() fails fatally for every training state
(its body starts with an unconditional ABORT); the division of the warm-up
ratio by the scheduled decay factor times state.factor is dead code. -/
theorem C7_tracking_aborts (cfg : SchedulerOptions) (s : TrainingState)
    (h : cfg.miniBatchTrackLR = true) :
    getDynamicMBSizeMultiplier cfg s = none := by
  unfold getDynamicMBSizeMultiplier
  simp [h]

/-- Counterexample for C7 as stated: with rate tracking enabled (and no
warm-up, no scheduled decay, state.factor = 1) the claim predicts the value
some 1, but the call aborts. -/
theorem C7_counterexample :
    getDynamicMBSizeMultiplier { testOptions with miniBatchTrackLR := true } testState
      = none := by
  unfold getDynamicMBSizeMultiplier
  simp

/-- Witness for C7 (amended) at a concrete configuration with rate tracking
enabled. -/
theorem C7_tracking_witness :
    ({ testOptions with miniBatchTrackLR := true } : SchedulerOptions).miniBatchTrackLR
        = true ∧
    getDynamicMBSizeMultiplier { testOptions with miniBatchTrackLR := true }
      { testState with batches := 42 } = none :=
  ⟨rfl, C7_tracking_aborts _ _ rfl⟩

/-- C9: Scheduler::load evaluates mpi_->isMainProcess() before the if(mpi_)
null guard, so with the constructor-default null reducer load crashes (none),
while any non-null reducer yields a result. -/
theorem C9_load_null_reducer (progressFileExists : Bool) (content : String) :
    schedulerLoad none progressFileExists content = none ∧
    (∀ m : MPIModel, ∃ r, schedulerLoad (some m) progressFileExists content = some r) :=
  ⟨rfl, fun _ => ⟨_, rfl⟩⟩

/-- C10: with an empty validator list all three stalled aggregates are 0, so
stalled() is 0 for every early-stopping-on value and keepGoing() is
insensitive to the early-stopping setting. -/
theorem C10_no_validators_no_early_stop (cfg : SchedulerOptions)
    (endOfStdin saveExit : Bool) (s : TrainingState) (e eAlt : Nat) :
    stalled1st [] = 0 ∧ stalledMax [] = 0 ∧ stalledMin [] = 0 ∧
    (∀ stopOn : String, stalled stopOn [] = 0) ∧
    keepGoing { cfg with earlyStopping := e } [] endOfStdin saveExit s =
      keepGoing { cfg with earlyStopping := eAlt } [] endOfStdin saveExit s := by
  have hmin : stalledMin [] = 0 := by unfold stalledMin; simp
  have hstall : ∀ stopOn : String, stalled stopOn [] = 0 := by
    intro stopOn
    unfold stalled
    split_ifs <;> simp [stalled1st, stalledMax, hmin]
  refine ⟨rfl, rfl, hmin, hstall, ?_⟩
  unfold keepGoing
  simp only [hstall]
  have hcond : ∀ x : Nat, ¬(0 < x ∧ x ≤ 0) := by omega
  rw [if_neg (hcond e), if_neg (hcond eAlt)]
  have hLE1 : calculateLogicalEpoch { cfg with earlyStopping := e } s
      = calculateLogicalEpoch cfg s := rfl
  have hLE2 : calculateLogicalEpoch { cfg with earlyStopping := eAlt } s
      = calculateLogicalEpoch cfg s := rfl
  have hAC1 : afterCriterionFires { cfg with earlyStopping := e } s
      = afterCriterionFires cfg s := rfl
  have hAC2 : afterCriterionFires { cfg with earlyStopping := eAlt } s
      = afterCriterionFires cfg s := rfl
  rw [hLE1, hLE2, hAC1, hAC2]

/-- C2: keepGoing() returns false exactly when the shutdown signal was
received, or a configured stopping criterion (after-epochs, after-batches,
or any entry of the comma-separated after list, each against its own unit)
is satisfied, or the early-stopping stall threshold is met, or end of the
input stream was recorded; in particular with after-batches = 100 it returns
false as soon as batches reaches 100. -/
theorem C2_keepGoing_characterization (cfg : SchedulerOptions)
    (validators : List (Option Nat)) (endOfStdin saveExit : Bool) (s : TrainingState) :
    (keepGoing cfg validators endOfStdin saveExit s = false ↔
      (saveExit = true
       ∨ (0 < cfg.afterEpochs ∧ (cfg.afterEpochs : ℚ) < calculateLogicalEpoch cfg s)
       ∨ (0 < cfg.afterBatches ∧ cfg.afterBatches ≤ s.batches)
       ∨ (∃ p ∈ cfg.after, 0 < p.n ∧
           ((p.unit = SchedulingUnit.epochs ∧ (p.n : ℚ) < calculateLogicalEpoch cfg s)
            ∨ (p.unit = SchedulingUnit.updates ∧ p.n ≤ s.batches)
            ∨ (p.unit = SchedulingUnit.trgLabels ∧ p.n ≤ s.labelsTotal)))
       ∨ (0 < cfg.earlyStopping ∧
           cfg.earlyStopping ≤ stalled cfg.earlyStoppingOn validators)
       ∨ endOfStdin = true)) ∧
    (cfg.afterBatches = 100 → 100 ≤ s.batches →
      keepGoing cfg validators endOfStdin saveExit s = false) := by
  have hany : cfg.after.any (afterCriterionFires cfg s) = true ↔
      (∃ p ∈ cfg.after, 0 < p.n ∧
        ((p.unit = SchedulingUnit.epochs ∧ (p.n : ℚ) < calculateLogicalEpoch cfg s)
         ∨ (p.unit = SchedulingUnit.updates ∧ p.n ≤ s.batches)
         ∨ (p.unit = SchedulingUnit.trgLabels ∧ p.n ≤ s.labelsTotal))) := by
    rw [List.any_eq_true]
    apply exists_congr
    intro p
    unfold afterCriterionFires
    simp [and_assoc, or_assoc]
  constructor
  · unfold keepGoing
    split_ifs with h1 h2 h3 h4 h5 h6 <;> simp_all
  · intro hb hs
    unfold keepGoing
    split_ifs with h1 h2 h3 <;> simp_all

/-- Witness for C2 at the claim's concrete numbers: after-batches = 100 and
current batches = 100 stop the run. -/
theorem C2_keepGoing_witness :
    ({ testOptions with afterBatches := 100 } : SchedulerOptions).afterBatches = 100 ∧
    100 ≤ ({ testState with batches := 100 } : TrainingState).batches ∧
    keepGoing { testOptions with afterBatches := 100 } [] false false
      { testState with batches := 100 } = false :=
  ⟨rfl, le_refl 100,
    (C2_keepGoing_characterization { testOptions with afterBatches := 100 } [] false false
      { testState with batches := 100 }).2 rfl (le_refl 100)⟩

/-- C5 (amended): getScheduledLRDecayFactor returns 1 while progress is at or
below the decay-start threshold and sqrt(n / (progress - start + n)) once
progress exceeds it, with the threshold defaulting to n itself when only one
argument is given; a unit mismatch between the two arguments is fatal when
the second argument is set (nonzero) — an unset (zero) second argument with
a different unit is tolerated and only contributes its zero threshold. -/
theorem C5_inv_sqrt_decay (g d : SchedulingParameter) (s : TrainingState)
    (hg : 0 < g.n) :
    (s.getProgressIn g.unit ≤ g.n → getScheduledLRDecayFactor [g] s = some 1) ∧
    (g.n < s.getProgressIn g.unit →
      getScheduledLRDecayFactor [g] s =
        some (Real.sqrt (((g.n : ℚ) /
          ((s.getProgressIn g.unit - g.n + g.n : Nat) : ℚ) : ℚ) : ℝ))) ∧
    (0 < d.n → d.unit ≠ g.unit → getScheduledLRDecayFactor [g, d] s = none) ∧
    (d.unit = g.unit →
      (s.getProgressIn g.unit ≤ d.n → getScheduledLRDecayFactor [g, d] s = some 1) ∧
      (d.n < s.getProgressIn g.unit →
        getScheduledLRDecayFactor [g, d] s =
          some (Real.sqrt (((g.n : ℚ) /
            ((s.getProgressIn g.unit - d.n + g.n : Nat) : ℚ) : ℚ) : ℝ)))) := by
  have hgt : g.truthy = true := by
    unfold SchedulingParameter.truthy
    exact decide_eq_true hg
  refine ⟨?_, ?_, ?_, ?_⟩
  · intro hle
    simp only [getScheduledLRDecayFactor, getScheduledLRDecayRadicand]
    rw [if_neg (fun h : g.truthy = true ∧ g.n < s.getProgressIn g.unit =>
      absurd h.2 (by omega))]
    simp [Real.sqrt_one]
  · intro hlt
    simp only [getScheduledLRDecayFactor, getScheduledLRDecayRadicand]
    rw [if_pos ⟨hgt, hlt⟩]
    rfl
  · intro hd hne
    have hdt : d.truthy = true := by
      unfold SchedulingParameter.truthy
      exact decide_eq_true hd
    simp only [getScheduledLRDecayFactor, getScheduledLRDecayRadicand]
    rw [if_pos ⟨hdt, hne⟩]
    rfl
  · intro hde
    constructor
    · intro hle
      simp only [getScheduledLRDecayFactor, getScheduledLRDecayRadicand]
      rw [if_neg (fun h : d.truthy = true ∧ d.unit ≠ g.unit => absurd hde h.2)]
      rw [if_neg (fun h : g.truthy = true ∧ d.n < s.getProgressIn g.unit =>
        absurd h.2 (by omega))]
      simp [Real.sqrt_one]
    · intro hlt
      simp only [getScheduledLRDecayFactor, getScheduledLRDecayRadicand]
      rw [if_neg (fun h : d.truthy = true ∧ d.unit ≠ g.unit => absurd hde h.2)]
      rw [if_pos ⟨hgt, hlt⟩]
      rfl

/-- Counterexample for C5 as stated: the arguments 100u and 0e carry
different units, yet the call does not fail — the second argument is falsy
(zero count), so the unit check is skipped and the factor 1 is returned. -/
theorem C5_counterexample :
    getScheduledLRDecayFactor
        [⟨100, SchedulingUnit.updates⟩, ⟨0, SchedulingUnit.epochs⟩] testState = some 1 ∧
    (⟨100, SchedulingUnit.updates⟩ : SchedulingParameter).unit ≠
      (⟨0, SchedulingUnit.epochs⟩ : SchedulingParameter).unit := by
  constructor
  · simp only [getScheduledLRDecayFactor, getScheduledLRDecayRadicand]
    norm_num [SchedulingParameter.truthy, TrainingState.getProgressIn, testState,
      Real.sqrt_one]
  · simp

/-- Witness for C5 (amended): with the single argument 2u and 5 updates of
progress the factor is sqrt(2 / (5 - 2 + 2)); with arguments 2u, 1e the unit
mismatch on a set second argument is fatal. -/
theorem C5_inv_sqrt_witness :
    0 < (⟨2, SchedulingUnit.updates⟩ : SchedulingParameter).n ∧
    (2 : Nat) < ({ testState with batches := 5 } : TrainingState).getProgressIn
      SchedulingUnit.updates ∧
    getScheduledLRDecayFactor [⟨2, SchedulingUnit.updates⟩] { testState with batches := 5 }
      = some (Real.sqrt (((2 : ℚ) / ((5 - 2 + 2 : Nat) : ℚ) : ℚ) : ℝ)) ∧
    getScheduledLRDecayFactor [⟨2, SchedulingUnit.updates⟩, ⟨1, SchedulingUnit.epochs⟩]
      { testState with batches := 5 } = none := by
  have h2 : 0 < (⟨2, SchedulingUnit.updates⟩ : SchedulingParameter).n := by norm_num
  have h5 : (2 : Nat) < ({ testState with batches := 5 } : TrainingState).getProgressIn
      SchedulingUnit.updates := by
    simp [TrainingState.getProgressIn]
  have hmain := (C5_inv_sqrt_decay ⟨2, SchedulingUnit.updates⟩ ⟨1, SchedulingUnit.epochs⟩
    { testState with batches := 5 } h2).2.1 h5
  have hfatal := ((C5_inv_sqrt_decay ⟨2, SchedulingUnit.updates⟩ ⟨1, SchedulingUnit.epochs⟩
    { testState with batches := 5 } h2).2.2.1) (by norm_num) (by simp)
  refine ⟨h2, h5, ?_, hfatal⟩
  rw [hmain]
  norm_num [TrainingState.getProgressIn]

theorem updateEta_eta (s : TrainingState) (x : ℝ) :
    (s.updateEta x).eta = x * ((s.factor : ℝ)) := rfl

/-- C4: updateLearningRate computes the warm-up as a linear ramp anchored at
state.warmupStart: at progress equal to warmupStart the effective base rate
equals lr-warmup-start-rate; at or past warmupStart plus the warm-up window
n the warm-up factor is 1 and eta equals the base learn-rate times the
scheduled inverse-sqrt decay factor times state.factor; in between the base
rate is lrStart + (baselr - lrStart) * (progress - warmupStart) / n. -/
theorem C4_warmup_learning_rate (cfg : SchedulerOptions) (s : TrainingState) (rad : ℚ)
    (hw : cfg.lrWarmup.truthy = true)
    (hcompat : ¬(s.warmupStart.truthy = true ∧ s.warmupStart.unit ≠ cfg.lrWarmup.unit))
    (hrad : getScheduledLRDecayRadicand cfg.lrDecayInvSqrt s = some rad)
    (hbound : s.getProgressIn cfg.lrWarmup.unit < 2 ^ 64) :
    (s.getProgressIn cfg.lrWarmup.unit = s.warmupStart.n →
      ∃ s2, updateLearningRate cfg s = some s2 ∧
        s2.eta = ((cfg.lrWarmupStartRate : ℝ)) * Real.sqrt ((rad : ℝ)) *
          ((s.factor : ℝ))) ∧
    (s.warmupStart.n + cfg.lrWarmup.n ≤ s.getProgressIn cfg.lrWarmup.unit →
      ∃ s2, updateLearningRate cfg s = some s2 ∧
        s2.eta = ((cfg.learnRate : ℝ)) * Real.sqrt ((rad : ℝ)) * ((s.factor : ℝ))) ∧
    (s.warmupStart.n ≤ s.getProgressIn cfg.lrWarmup.unit →
      s.getProgressIn cfg.lrWarmup.unit < s.warmupStart.n + cfg.lrWarmup.n →
      ∃ s2, updateLearningRate cfg s = some s2 ∧
        s2.eta = (((cfg.lrWarmupStartRate + (cfg.learnRate - cfg.lrWarmupStartRate) *
          (((s.getProgressIn cfg.lrWarmup.unit - s.warmupStart.n : Nat) : ℚ) /
            (cfg.lrWarmup.n : ℚ)) : ℚ) : ℝ)) * Real.sqrt ((rad : ℝ)) *
          ((s.factor : ℝ))) := by
  have hn : 0 < cfg.lrWarmup.n := by
    have h := hw
    unfold SchedulingParameter.truthy at h
    exact of_decide_eq_true h
  have hnQ : (0 : ℚ) < (cfg.lrWarmup.n : ℚ) := by exact_mod_cast hn
  have key : updateLearningRate cfg s =
      some (s.updateEta
        (((cfg.lrWarmupStartRate + (cfg.learnRate - cfg.lrWarmupStartRate) *
          (min 1 (((sizeTSub (s.getProgressIn cfg.lrWarmup.unit) s.warmupStart.n : Nat) : ℚ) /
            (cfg.lrWarmup.n : ℚ))) : ℚ) : ℝ) * Real.sqrt ((rad : ℝ)))) := by
    unfold updateLearningRate
    rw [if_pos hw, if_neg hcompat, hrad]
  refine ⟨?_, ?_, ?_⟩
  · intro heq
    have hsub : sizeTSub (s.getProgressIn cfg.lrWarmup.unit) s.warmupStart.n = 0 := by
      rw [heq] at hbound ⊢
      rw [sizeTSub_of_le _ _ le_rfl hbound]
      omega
    have hbase : (cfg.lrWarmupStartRate + (cfg.learnRate - cfg.lrWarmupStartRate) *
        (min 1 (((sizeTSub (s.getProgressIn cfg.lrWarmup.unit) s.warmupStart.n : Nat) : ℚ) /
          (cfg.lrWarmup.n : ℚ))) : ℚ) = cfg.lrWarmupStartRate := by
      rw [hsub]
      push_cast
      rw [zero_div, min_eq_right (by norm_num : (0 : ℚ) ≤ 1)]
      ring
    refine ⟨_, key, ?_⟩
    rw [updateEta_eta, hbase]
  · intro hge
    have hsub : sizeTSub (s.getProgressIn cfg.lrWarmup.unit) s.warmupStart.n =
        s.getProgressIn cfg.lrWarmup.unit - s.warmupStart.n :=
      sizeTSub_of_le _ _ (by omega) hbound
    have hfac : min 1 (((sizeTSub (s.getProgressIn cfg.lrWarmup.unit) s.warmupStart.n :
        Nat) : ℚ) / (cfg.lrWarmup.n : ℚ)) = 1 := by
      rw [hsub]
      refine min_eq_left ?_
      rw [one_le_div hnQ]
      exact_mod_cast (by omega :
        cfg.lrWarmup.n ≤ s.getProgressIn cfg.lrWarmup.unit - s.warmupStart.n)
    have hbase : (cfg.lrWarmupStartRate + (cfg.learnRate - cfg.lrWarmupStartRate) *
        (min 1 (((sizeTSub (s.getProgressIn cfg.lrWarmup.unit) s.warmupStart.n : Nat) : ℚ) /
          (cfg.lrWarmup.n : ℚ))) : ℚ) = cfg.learnRate := by
      rw [hfac]
      ring
    refine ⟨_, key, ?_⟩
    rw [updateEta_eta, hbase]
  · intro hge hlt
    have hsub : sizeTSub (s.getProgressIn cfg.lrWarmup.unit) s.warmupStart.n =
        s.getProgressIn cfg.lrWarmup.unit - s.warmupStart.n :=
      sizeTSub_of_le _ _ hge hbound
    have hfac : min 1 (((sizeTSub (s.getProgressIn cfg.lrWarmup.unit) s.warmupStart.n :
        Nat) : ℚ) / (cfg.lrWarmup.n : ℚ)) =
        (((s.getProgressIn cfg.lrWarmup.unit - s.warmupStart.n : Nat) : ℚ) /
          (cfg.lrWarmup.n : ℚ)) := by
      rw [hsub]
      refine min_eq_right ?_
      rw [div_le_one hnQ]
      exact_mod_cast (by omega :
        s.getProgressIn cfg.lrWarmup.unit - s.warmupStart.n ≤ cfg.lrWarmup.n)
    refine ⟨_, key, ?_⟩
    rw [updateEta_eta, hfac]

/-- Witness for C4 at the claim's end-to-end numbers: lr-warmup = 100u,
lr-warmup-start-rate = 0, learn-rate = 1, no decay; eta = 1/2 after 50
updates and eta = 1 at 100 updates. -/
theorem C4_warmup_witness :
    warmupOptions.lrWarmup.truthy = true ∧
    getScheduledLRDecayRadicand warmupOptions.lrDecayInvSqrt
      { testState with batches := 50 } = some 1 ∧
    (∃ s2, updateLearningRate warmupOptions { testState with batches := 50 } = some s2 ∧
      s2.eta = 1 / 2) ∧
    (∃ s2, updateLearningRate warmupOptions { testState with batches := 100 } = some s2 ∧
      s2.eta = 1) := by
  have hw : warmupOptions.lrWarmup.truthy = true := by
    norm_num [warmupOptions, testOptions, SchedulingParameter.truthy]
  have hcompat : ∀ b : Nat, ¬(({ testState with batches := b } :
      TrainingState).warmupStart.truthy = true ∧
      ({ testState with batches := b } : TrainingState).warmupStart.unit ≠
        warmupOptions.lrWarmup.unit) := by
    intro b
    norm_num [warmupOptions, testOptions, testState, SchedulingParameter.truthy]
  have hrad : ∀ b : Nat, getScheduledLRDecayRadicand warmupOptions.lrDecayInvSqrt
      { testState with batches := b } = some 1 := by
    intro b
    simp [warmupOptions, testOptions, getScheduledLRDecayRadicand,
      SchedulingParameter.truthy]
  have hb50 : ({ testState with batches := 50 } : TrainingState).getProgressIn
      warmupOptions.lrWarmup.unit = 50 := by
    simp [warmupOptions, testOptions, TrainingState.getProgressIn]
  have hb100 : ({ testState with batches := 100 } : TrainingState).getProgressIn
      warmupOptions.lrWarmup.unit = 100 := by
    simp [warmupOptions, testOptions, TrainingState.getProgressIn]
  refine ⟨hw, hrad 50, ?_, ?_⟩
  · obtain ⟨s2, hs2, heta⟩ :=
      (C4_warmup_learning_rate warmupOptions { testState with batches := 50 } 1 hw
        (hcompat 50) (hrad 50) (by rw [hb50]; norm_num)).2.2
        (by rw [hb50]; norm_num [testState])
        (by rw [hb50]; norm_num [testState, warmupOptions, testOptions])
    refine ⟨s2, hs2, ?_⟩
    rw [heta, hb50]
    norm_num [testState, warmupOptions, testOptions, Real.sqrt_one]
  · obtain ⟨s2, hs2, heta⟩ :=
      (C4_warmup_learning_rate warmupOptions { testState with batches := 100 } 1 hw
        (hcompat 100) (hrad 100) (by rw [hb100]; norm_num)).2.1
        (by rw [hb100]; norm_num [testState, warmupOptions, testOptions])
    refine ⟨s2, hs2, ?_⟩
    rw [heta]
    norm_num [testState, warmupOptions, testOptions, Real.sqrt_one]

/-- C1: with divergence detection enabled and a finite normalized loss, once
the updated batch counter exceeds the slow window, if at the detection point
(the state after the update is counted and the averages possibly seeded)
delta = lossAvgFast - lossAvgSlow > 0, sigma = sqrt(lossVarSlow) > 0 and
delta / sigma exceeds the tolerance, then update() raises the divergence
exception carrying (lossAvgSlow, lossAvgFast, delta / sigma); an update with
a non-finite normalized loss never changes the loss moving averages or
variance and never raises the divergence error. -/
theorem C1_update_divergence (cfg : SchedulerOptions) (s : TrainingState)
    (loss : Option ℚ) (count : ℚ) (batchSize batchLabels : Nat)
    (henabled : cfg.throwOnDivergence = true) :
    (∀ c : ℚ, fdiv loss count = some c →
      ∀ sc : TrainingState,
        sc = initAdjust c (preDivState s loss count batchSize batchLabels) →
        cfg.lossAvgWindowSlow < sc.batches →
        0 < sc.lossAvgFast - sc.lossAvgSlow →
        0 < Real.sqrt ((sc.lossVarSlow : ℝ)) →
        ((cfg.divergenceTolerance : ℝ)) <
          ((sc.lossAvgFast - sc.lossAvgSlow : ℚ) : ℝ) /
            Real.sqrt ((sc.lossVarSlow : ℝ)) →
        ∃ e : DivergenceError,
          schedulerUpdate cfg s loss count batchSize batchLabels = .error e ∧
          e.averageSlow = sc.lossAvgSlow ∧ e.averageFast = sc.lossAvgFast ∧
          e.sigmas = ((sc.lossAvgFast - sc.lossAvgSlow : ℚ) : ℝ) /
            Real.sqrt ((sc.lossVarSlow : ℝ))) ∧
    (fdiv loss count = none →
      ∃ s2 : TrainingState,
        schedulerUpdate cfg s loss count batchSize batchLabels = .ok s2 ∧
        s2.lossAvgSlow = s.lossAvgSlow ∧ s2.lossAvgFast = s.lossAvgFast ∧
        s2.lossVarSlow = s.lossVarSlow) := by
  constructor
  · intro c hc sc hsc hwin hdelta hsigma htol
    have hfire : divergenceFires (sc.lossAvgFast - sc.lossAvgSlow) sc.lossVarSlow
        cfg.divergenceTolerance = true :=
      (divergenceFires_iff _ _ _).mpr ⟨hdelta, hsigma, htol⟩
    refine ⟨.statistical sc.lossAvgSlow sc.lossAvgFast
      (sc.lossAvgFast - sc.lossAvgSlow) sc.lossVarSlow, ?_, rfl, rfl, rfl⟩
    unfold schedulerUpdate
    rw [hc]
    simp only [henabled, if_true]
    simp only [divergenceStep]
    rw [← hsc]
    rw [if_pos ⟨hwin, hfire⟩]
    rfl
  · intro hnone
    refine ⟨displayReset cfg (preDivState s loss count batchSize batchLabels),
      ?_, ?_, ?_, ?_⟩
    · unfold schedulerUpdate
      rw [hnone]
      rfl
    · rw [displayReset_lossAvgSlow, preDivState_lossAvgSlow]
    · rw [displayReset_lossAvgFast, preDivState_lossAvgFast]
    · rw [displayReset_lossVarSlow, preDivState_lossVarSlow]

/-- Witness for C1: with windows (2, 1), tolerance 5, a state with slow
average 1, fast average 11, slow variance 1 at batch 10, the finite
normalized loss 100 raises the exception carrying (1, 11, 10 sigmas); with a
non-finite loss the update succeeds and leaves the loss statistics
untouched. -/
theorem C1_update_divergence_witness :
    divOptions.throwOnDivergence = true ∧
    fdiv (some 100) 1 = some 100 ∧
    (∃ e : DivergenceError,
      schedulerUpdate divOptions divState (some 100) 1 1 1 = .error e ∧
      e.averageSlow = 1 ∧ e.averageFast = 11 ∧ e.sigmas = 10) ∧
    fdiv none 1 = none ∧
    (∃ s2, schedulerUpdate divOptions divState none 1 1 1 = .ok s2 ∧
      s2.lossAvgSlow = 1 ∧ s2.lossAvgFast = 11 ∧ s2.lossVarSlow = 1) := by
  have hpre : (preDivState divState (some 100) 1 1 1).lossAvgSlow = 1 := by
    rw [preDivState_lossAvgSlow]
    norm_num [divState, testState]
  have hni : initAdjust 100 (preDivState divState (some 100) 1 1 1) =
      preDivState divState (some 100) 1 1 1 := by
    unfold initAdjust
    rw [if_neg (by rw [hpre]; norm_num)]
  have hslowv : (preDivState divState (some 100) 1 1 1).lossAvgSlow = 1 := hpre
  have hfastv : (preDivState divState (some 100) 1 1 1).lossAvgFast = 11 := by
    rw [preDivState_lossAvgFast]
    norm_num [divState, testState]
  have hvarv : (preDivState divState (some 100) 1 1 1).lossVarSlow = 1 := by
    rw [preDivState_lossVarSlow]
    norm_num [divState, testState]
  have hbatv : (preDivState divState (some 100) 1 1 1).batches = 11 := by
    rw [preDivState_batches]
    norm_num [divState, testState]
  have hsqrt : Real.sqrt (((preDivState divState (some 100) 1 1 1).lossVarSlow : ℝ))
      = 1 := by
    rw [hvarv]
    norm_num [Real.sqrt_one]
  obtain ⟨e, he, h1, h2, h3⟩ :=
    (C1_update_divergence divOptions divState (some 100) 1 1 1 rfl).1
      100 (by norm_num [fdiv]) _ rfl
      (by rw [hni, hbatv]; norm_num [divOptions, testOptions])
      (by rw [hni, hfastv, hslowv]; norm_num)
      (by rw [hni, hsqrt]; norm_num)
      (by rw [hni, hsqrt, hfastv, hslowv]; norm_num [divOptions, testOptions])
  obtain ⟨s2, hok, hs1, hs2, hs3⟩ :=
    (C1_update_divergence divOptions divState none 1 1 1 rfl).2 rfl
  refine ⟨rfl, by norm_num [fdiv], ⟨e, he, ?_, ?_, ?_⟩, rfl, ⟨s2, hok, ?_, ?_, ?_⟩⟩
  · rw [h1, hni, hslowv]
  · rw [h2, hni, hfastv]
  · rw [h3, hni, hsqrt, hfastv, hslowv]
    norm_num
  · rw [hs1]; norm_num [divState, testState]
  · rw [hs2]; norm_num [divState, testState]
  · rw [hs3]; norm_num [divState, testState]

/-- C8: with divergence detection enabled and no diagnostic throw-after
mark, feeding update() a stream of batches of any length whose normalized
loss is the same finite constant on every step never raises the divergence
error (the run starts with fresh loss statistics). -/
theorem C8_constant_loss_never_diverges (cfg : SchedulerOptions) (s : TrainingState)
    (c : ℚ) (inputs : List UpdateInput)
    (hthrow : cfg.throwOnDivergence = true)
    (hafter : cfg.throwAfter.truthy = false)
    (hconst : ∀ i ∈ inputs, fdiv i.loss i.count = some c)
    (hslow : s.lossAvgSlow = 0) (hfast : s.lossAvgFast = 0)
    (hvar : s.lossVarSlow = 0) :
    ∃ s2, updateRun cfg s inputs = .ok s2 := by
  suffices h : ∀ (l : List UpdateInput) (st : TrainingState),
      (∀ i ∈ l, fdiv i.loss i.count = some c) →
      st.lossAvgFast = st.lossAvgSlow → st.lossVarSlow = 0 →
      (st.lossAvgSlow = 0 ∨ st.lossAvgSlow = c) →
      ∃ s2, updateRun cfg st l = .ok s2 by
    exact h inputs s hconst (by rw [hfast, hslow]) hvar (Or.inl hslow)
  intro l
  induction l with
  | nil => exact fun st _ _ _ _ => ⟨st, rfl⟩
  | cons i rest ih =>
    intro st hc hfs hv hsc
    obtain ⟨s2, hs2, h1, h2, h3⟩ :=
      constantLoss_step cfg st c i hthrow hafter (hc i (List.mem_cons_self i rest))
        hfs hv hsc
    obtain ⟨s3, hs3⟩ := ih s2 (fun j hj => hc j (List.mem_cons_of_mem i hj)) h1 h2 h3
    refine ⟨s3, ?_⟩
    unfold updateRun
    rw [hs2]
    exact hs3

/-- Witness for C8: a three-batch stream with (loss, count) pairs (4, 2),
(2, 1), (6, 3) — constant normalized loss 2 — runs to completion without a
divergence exception under the enabled detector. -/
theorem C8_constant_loss_witness :
    divOptions.throwOnDivergence = true ∧
    divOptions.throwAfter.truthy = false ∧
    (∀ i ∈ [(⟨some 4, 2, 1, 1⟩ : UpdateInput), ⟨some 2, 1, 1, 1⟩, ⟨some 6, 3, 1, 1⟩],
      fdiv i.loss i.count = some 2) ∧
    ∃ s2, updateRun divOptions testState
      [⟨some 4, 2, 1, 1⟩, ⟨some 2, 1, 1, 1⟩, ⟨some 6, 3, 1, 1⟩] = .ok s2 := by
  have hconst : ∀ i ∈ [(⟨some 4, 2, 1, 1⟩ : UpdateInput), ⟨some 2, 1, 1, 1⟩,
      ⟨some 6, 3, 1, 1⟩], fdiv i.loss i.count = some 2 := by
    intro i hi
    simp only [List.mem_cons, List.not_mem_nil, or_false] at hi
    rcases hi with h | h | h <;> subst h <;> norm_num [fdiv]
  refine ⟨rfl, rfl, hconst, ?_⟩
  exact C8_constant_loss_never_diverges divOptions testState 2 _ rfl rfl hconst
    (by norm_num [testState]) (by norm_num [testState]) (by norm_num [testState])

end Marian
